import Mathlib

/-!
Verification of the CServer HTTP server core (server.c, thread_pool.c, http.c).

The development shallowly embeds the data model and operations of the server:
the sliding-window rate limiter (`check_rate_limit`), the bounded worker-pool
queue (`thread_pool_add` / `worker_dequeue` / `thread_pool_destroy`), the
static-file request handler (`handle_http_request`) and the response
serializer (`send_http_response`).  C strings become Lean `String`s, byte
buffers become `List`/`String`, `time_t` becomes `Int`, and the file system
and the gzip primitive become explicit function parameters.  Machine-integer
overflow is modelled with explicit `% 2^32` where the C code relies on it
(the IP hash).
-/

set_option maxRecDepth 100000

/-! ## String primitives mirroring the C library functions -/

/-- Model of taking the first `n` bytes of a C string (`strncpy` truncation,
`send(buf, n)`): the first `n` characters. -/
def strTake (s : String) (n : Nat) : String :=
  String.mk (s.toList.take n)

/-- Boolean test that `n` is a leading segment of `h` (used to model
`strncmp(h, n, strlen(n)) == 0`). -/
def leadsList : List Char → List Char → Bool
  | [], _ => true
  | _ :: _, [] => false
  | a :: as, b :: bs => a == b && leadsList as bs

/-- Model of `strncmp(s, pat, strlen(pat)) == 0`: `pat` is a leading segment
of `s`. -/
def startsWithB (s pat : String) : Bool :=
  leadsList pat.toList s.toList

/-- Substring search on character lists: does `hay` contain `needle` as a
contiguous run?  Models C `strstr(hay, needle) != NULL`. -/
def containsSubList (needle : List Char) : List Char → Bool
  | [] => needle.isEmpty
  | c :: cs => leadsList needle (c :: cs) || containsSubList needle cs

/-- Model of `strstr(hay, needle) != NULL`. -/
def strContains (hay needle : String) : Bool :=
  containsSubList needle.toList hay.toList

/-- Lowercase hexadecimal rendering of a nonnegative integer, as produced by
`printf("%lx", n)` / `printf("%zx", n)`. -/
def hexStr (n : Nat) : String :=
  String.mk (Nat.toDigits 16 n)

/-- Case-insensitive string equality against a lowercase pattern
(`strcasecmp(s, pat) == 0` with `pat` all-lowercase). -/
def caseEq (s pat : String) : Bool :=
  s.toList.map Char.toLower == pat.toList

/-- The characters strictly after the last `'.'` of the list, or `none` when
no dot occurs; models `strrchr(path, '.')` followed by skipping the dot. -/
def extAfterLastDot (s : List Char) : Option (List Char) :=
  s.foldl (fun acc c => if c = '.' then some [] else acc.map (· ++ [c])) none

/-! ## Server configuration (`server_config_t`, the fields the core reads) -/

/-- The configuration snapshot consumed by the modelled core.  Fields not
read by the modelled functions (port, backlog, log file, ...) are omitted. -/
structure server_config_t where
  doc_root : String
  enable_gzip : Bool
  gzip_min_size : Nat
  enable_rate_limit : Bool
  rate_limit_max : Int
  rate_limit_interval : Int
deriving DecidableEq

/-! ## Rate limiter (server.c: `rate_limit_entry_t`, `ip_hash`,
`check_rate_limit`) -/

/-- One slot of the rate-limit table: owning IP, the 1000-entry circular
buffer of request timestamps, the write index and the number of valid
entries.  The per-slot mutex is not part of the functional state. -/
structure rate_limit_entry_t where
  ip : String
  timestamps : List Int
  current_index : Nat
  count : Nat
deriving DecidableEq

/-- A zero-initialized slot, as produced by `memset(rate_limit_table, 0, ...)`
in `init_rate_limiting`. -/
def freshEntry : rate_limit_entry_t :=
  { ip := "", timestamps := List.replicate 1000 0, current_index := 0, count := 0 }

/-- The zero-initialized 1024-slot table. -/
def freshTable : Nat → rate_limit_entry_t := fun _ => freshEntry

/-- `ip_hash`: polynomial hash `h = h*31 + c` on unsigned 32-bit arithmetic,
reduced mod `RATE_LIMIT_TABLE_SIZE = 1024`. -/
def ip_hash (s : String) : Nat :=
  (s.toList.foldl (fun h c => (h * 31 + c.toNat) % 4294967296) 0) % 1024

/-- The body of `check_rate_limit` once the slot is selected (the code run
under the slot's mutex): possible eviction/reset of the slot, the
sliding-window count over the first `count` buffer cells, and the recording
of `now` when the request is admitted.  Returns
`(is_limited, updated slot)`. -/
def check_rate_limit_entry (cfg : server_config_t) (entry : rate_limit_entry_t)
    (client_ip : String) (now : Int) : Bool × rate_limit_entry_t :=
  -- new client, or hash collision with a different IP: reset the slot
  let entry1 :=
    if entry.count = 0 ∨ entry.ip ≠ client_ip then
      { entry with ip := strTake client_ip 45, count := 0, current_index := 0 }
    else entry
  let cutoff : Int := now - cfg.rate_limit_interval
  let valid_count := (entry1.timestamps.take entry1.count).countP (fun t => decide (cutoff ≤ t))
  if cfg.rate_limit_max ≤ (valid_count : Int) then
    (true, entry1)
  else
    (false,
      { entry1 with
        timestamps := entry1.timestamps.set entry1.current_index now
        current_index := (entry1.current_index + 1) % 1000
        count := if entry1.count < 1000 then entry1.count + 1 else entry1.count })

/-- `check_rate_limit(client_ip)`: disabled limiting always admits; otherwise
hash the address to a slot and run the locked slot update.  The global table
is threaded explicitly.  `true` means rate limited (the C function returns
1), `false` means allowed. -/
def check_rate_limit (cfg : server_config_t) (table : Nat → rate_limit_entry_t)
    (client_ip : String) (now : Int) : Bool × (Nat → rate_limit_entry_t) :=
  if cfg.enable_rate_limit = false then
    (false, table)
  else
    let h := ip_hash client_ip
    let r := check_rate_limit_entry cfg (table h) client_ip now
    (r.1, Function.update table h r.2)

/-- The table after `k` successive `check_rate_limit` calls for `ip`, the
`i`-th call happening at time `ts i`, starting from table `T0`. -/
def rl_table_iter (cfg : server_config_t) (T0 : Nat → rate_limit_entry_t)
    (ip : String) (ts : Nat → Int) : Nat → (Nat → rate_limit_entry_t)
  | 0 => T0
  | k + 1 => (check_rate_limit cfg (rl_table_iter cfg T0 ip ts k) ip (ts k)).2

/-- The timestamp buffer of a slot that started zeroed and then recorded the
`k` stamps `ts 0, ..., ts (k-1)` in order (`k ≤ 1000`). -/
def rl_stamps (ts : Nat → Int) (k : Nat) : List Int :=
  (List.range k).map ts ++ List.replicate (1000 - k) 0

/-- The slot contents after `k` admitted requests at times `ts 0..ts (k-1)`
from a fresh slot (`k ≤ 1000`). -/
def rl_slot (ip : String) (ts : Nat → Int) (k : Nat) : rate_limit_entry_t :=
  { ip := if k = 0 then "" else ip
    timestamps := rl_stamps ts k
    current_index := k % 1000
    count := k }

/-! ## Worker pool (thread_pool.c) -/

/-- `task_t`: a connection handed across the queue.  The peer address is
reduced to an abstract tag. -/
structure task_t where
  client_socket : Int
  client_addr : Nat
deriving DecidableEq

/-- `thread_pool_t`: the fixed-capacity circular task queue with its
head/tail indices, element count and shutdown flag.  The mutex, condition
variable and thread handles are not part of the functional state. -/
structure thread_pool_t where
  queue : List (Option task_t)
  queue_size : Nat
  size : Nat
  head : Nat
  tail : Nat
  count : Nat
  shutdown : Bool
deriving DecidableEq

/-- `thread_pool_create(size, queue_size)`: empty queue, indices zero,
shutdown clear. -/
def thread_pool_create (size queue_size : Nat) : thread_pool_t :=
  { queue := List.replicate queue_size none, queue_size := queue_size, size := size
    head := 0, tail := 0, count := 0, shutdown := false }

/-- `thread_pool_add(pool, task)`: reject (return -1, state unchanged) when
the queue is full or the pool is shutting down; otherwise write the task at
`tail`, advance `tail` circularly, bump `count` and return 0. -/
def thread_pool_add (pool : thread_pool_t) (task : task_t) : Int × thread_pool_t :=
  if pool.count = pool.queue_size then
    (-1, pool)
  else if pool.shutdown then
    (-1, pool)
  else
    (0, { pool with
            queue := pool.queue.set pool.tail (some task)
            tail := (pool.tail + 1) % pool.queue_size
            count := pool.count + 1 })

/-- One dequeue step of `worker_thread`: a worker exits when shutdown is
observed (no step), blocks when the queue is empty (no step), and otherwise
removes the cell at `head`, advances `head` circularly and decrements
`count`, returning the claimed cell. -/
def worker_dequeue (pool : thread_pool_t) : Option (Option task_t × thread_pool_t) :=
  if pool.shutdown then none
  else if pool.count = 0 then none
  else some (pool.queue.getD pool.head none,
    { pool with
        queue := pool.queue.set pool.head none
        head := (pool.head + 1) % pool.queue_size
        count := pool.count - 1 })

/-- The shared-state effect of `thread_pool_destroy`: a second call while
already shutting down is a no-op, otherwise the shutdown flag is set (the
joining and freeing that follow do not change the queue fields). -/
def thread_pool_destroy (pool : thread_pool_t) : thread_pool_t :=
  if pool.shutdown then pool else { pool with shutdown := true }

/-- One transition of the worker-pool state: a submission, a worker dequeue,
or a shutdown request. -/
inductive pool_step : thread_pool_t → thread_pool_t → Prop where
  | add (p : thread_pool_t) (t : task_t) : pool_step p (thread_pool_add p t).2
  | dequeue (p : thread_pool_t) (x : Option task_t) (p' : thread_pool_t) :
      worker_dequeue p = some (x, p') → pool_step p p'
  | destroy (p : thread_pool_t) : pool_step p (thread_pool_destroy p)

/-- Abstraction of the circular buffer: the queued tasks from `head` in
submission order. -/
def absQ (p : thread_pool_t) : List task_t :=
  (List.range p.count).filterMap
    (fun i => p.queue.getD ((p.head + i) % p.queue_size) none)

/-- Well-formedness of the circular queue: the array has the declared
capacity, the count is within capacity, the indices are in range and
consistent, and every queued cell is occupied. -/
def pool_wf (p : thread_pool_t) : Prop :=
  p.queue.length = p.queue_size ∧ 0 < p.queue_size ∧ p.count ≤ p.queue_size ∧
  p.head < p.queue_size ∧ p.tail = (p.head + p.count) % p.queue_size ∧
  ∀ i, i < p.count → ((p.queue.getD ((p.head + i) % p.queue_size) none).isSome = true)

instance (p : thread_pool_t) : Decidable (pool_wf p) := by
  unfold pool_wf; infer_instance

/-! ## HTTP types and handlers (http.h, http.c, server.c) -/

def MIME_HTML : String := "text/html; charset=UTF-8"
def MIME_TEXT : String := "text/plain; charset=UTF-8"
def MIME_JSON : String := "application/json; charset=UTF-8"
def MIME_CSS : String := "text/css; charset=UTF-8"
def MIME_JS : String := "application/javascript; charset=UTF-8"
def MIME_JPEG : String := "image/jpeg"
def MIME_PNG : String := "image/png"
def MIME_GIF : String := "image/gif"
def MIME_SVG : String := "image/svg+xml"
def MIME_BINARY : String := "application/octet-stream"

/-- `get_mime_type`: extension after the last dot of the whole resolved
path, matched case-insensitively against the fixed table. -/
def get_mime_type (file_path : String) : String :=
  match extAfterLastDot file_path.toList with
  | none => MIME_BINARY
  | some extChars =>
    let ext := String.mk extChars
    if caseEq ext "html" || caseEq ext "htm" then MIME_HTML
    else if caseEq ext "txt" then MIME_TEXT
    else if caseEq ext "css" then MIME_CSS
    else if caseEq ext "js" then MIME_JS
    else if caseEq ext "json" then MIME_JSON
    else if caseEq ext "jpg" || caseEq ext "jpeg" then MIME_JPEG
    else if caseEq ext "png" then MIME_PNG
    else if caseEq ext "gif" then MIME_GIF
    else if caseEq ext "svg" then MIME_SVG
    else MIME_BINARY

/-- `get_status_text`. -/
def get_status_text (status_code : Int) : String :=
  if status_code = 200 then "OK"
  else if status_code = 201 then "Created"
  else if status_code = 204 then "No Content"
  else if status_code = 301 then "Moved Permanently"
  else if status_code = 302 then "Found"
  else if status_code = 304 then "Not Modified"
  else if status_code = 400 then "Bad Request"
  else if status_code = 401 then "Unauthorized"
  else if status_code = 403 then "Forbidden"
  else if status_code = 404 then "Not Found"
  else if status_code = 405 then "Method Not Allowed"
  else if status_code = 500 then "Internal Server Error"
  else if status_code = 501 then "Not Implemented"
  else if status_code = 503 then "Service Unavailable"
  else "Unknown"

/-- `http_request_t`: the parsed-request fields read by the modelled
handlers.  Header fields the handlers never read (host, user-agent, request
body, ...) are omitted. -/
structure http_request_t where
  method : String
  path : String
  if_none_match : String
  accept_encoding : String
  keep_alive : Bool
deriving DecidableEq

/-- `http_response_t`.  The C struct's back-reference to the originating
request is passed separately to `send_http_response` (which reads it into a
local on entry). -/
structure http_response_t where
  status_code : Int
  status_text : String
  content_type : String
  content_length : Nat
  body : Option String
  keep_alive : Bool
deriving DecidableEq

/-- `build_http_response`: status text from the table, body copied when
present.  All C call sites pass a length equal to the body's byte count, so
the pair is modelled as an `Option String` whose length is the
content-length. -/
def build_http_response (keep_alive : Bool) (status_code : Int)
    (content_type : String) (body : Option String) : http_response_t :=
  { status_code := status_code
    status_text := get_status_text status_code
    content_type := content_type
    content_length := match body with | some s => s.length | none => 0
    body := body
    keep_alive := keep_alive }

/-- A node of the document tree: a directory (with the stat size/mtime of
the inode) or a regular file with contents, mtime and readability. -/
inductive fs_node where
  | dir (size : Nat) (mtime : Nat) : fs_node
  | file (content : String) (mtime : Nat) (readable : Bool) : fs_node
deriving DecidableEq

/-- `st.st_size` of a node (a file's size is its content length, matching
the successful-read path of `read_file_content`). -/
def fs_stat_size : fs_node → Nat
  | .dir s _ => s
  | .file c _ _ => c.length

/-- `st.st_mtime` of a node. -/
def fs_stat_mtime : fs_node → Nat
  | .dir _ m => m
  | .file _ m _ => m

/-- `read_file_content`: succeeds with the contents of a readable regular
file; fails on directories and unreadable files. -/
def fs_read : fs_node → Option String
  | .dir _ _ => none
  | .file c _ r => if r then some c else none

/-- The conditional-request validator: `W/"<size-hex>-<mtime-hex>"`, the
`snprintf(etag, "W/\x22%lx-%lx\x22", size, mtime)` of
`handle_http_request` (and, with other arguments, the response-level ETag of
`send_http_response`). -/
def mk_etag (a b : Nat) : String :=
  "W/\"" ++ hexStr a ++ "-" ++ hexStr b ++ "\""

/-- `<docRoot>/index.html` for the root path, `<docRoot><path>` verbatim
otherwise. -/
def resolve_path (cfg : server_config_t) (path : String) : String :=
  if path = "/" then cfg.doc_root ++ "/index.html" else cfg.doc_root ++ path

/-- The tail of `handle_http_request` once a path has resolved to an
existing node: MIME type, validator, conditional 304, file read (500 on
failure), HEAD body discard, 200. -/
def serve_resolved_file (req : http_request_t) (file_path : String)
    (node : fs_node) : http_response_t :=
  let mime := get_mime_type file_path
  let etag := mk_etag (fs_stat_size node) (fs_stat_mtime node)
  if req.if_none_match ≠ "" ∧ strContains req.if_none_match etag = true then
    { status_code := 304, status_text := "Not Modified", content_type := mime
      content_length := 0, body := none, keep_alive := req.keep_alive }
  else
    match fs_read node with
    | none => build_http_response req.keep_alive 500 MIME_TEXT (some "Internal Server Error")
    | some content =>
      if req.method = "HEAD" then
        build_http_response req.keep_alive 200 mime none
      else
        build_http_response req.keep_alive 200 mime (some content)

/-- `handle_http_request`: method gate, path resolution, 404 on a missing
node, directory redirect/`index.html` retry, then `serve_resolved_file`.
The 301 branch of the C code formats `redirect_path = path + "/"` into a
local buffer that is never used afterwards; the built response carries no
redirect target. -/
def handle_http_request (cfg : server_config_t) (fs : String → Option fs_node)
    (req : http_request_t) : http_response_t :=
  if req.method ≠ "GET" ∧ req.method ≠ "HEAD" then
    build_http_response req.keep_alive 405 MIME_TEXT (some "Method Not Allowed")
  else
    let file_path := resolve_path cfg req.path
    match fs file_path with
    | none => build_http_response req.keep_alive 404 MIME_TEXT (some "Not Found")
    | some node =>
      match node with
      | .dir _ _ =>
        if req.path.toList.getLast? ≠ some '/' then
          { status_code := 301, status_text := "Moved Permanently"
            content_type := MIME_TEXT, content_length := 0, body := none
            keep_alive := req.keep_alive }
        else
          let file_path2 := cfg.doc_root ++ req.path ++ "/index.html"
          match fs file_path2 with
          | none => build_http_response req.keep_alive 404 MIME_TEXT (some "Not Found")
          | some node2 => serve_resolved_file req file_path2 node2
      | .file _ _ _ => serve_resolved_file req file_path node

/-- `client_accepts_gzip`: NULL is refused, otherwise a plain substring
search for "gzip" in the Accept-Encoding value. -/
def client_accepts_gzip : Option String → Bool
  | none => false
  | some accept_encoding => strContains accept_encoding "gzip"

/-- The compressible-content-type test of `send_http_response`. -/
def compressible_content_type (content_type : String) : Bool :=
  startsWithB content_type "text/" ||
  startsWithB content_type "application/json" ||
  startsWithB content_type "application/javascript" ||
  startsWithB content_type "application/xml" ||
  startsWithB content_type "application/x-javascript"

/-- The cache-header block of `send_http_response`: per-content-type
`Cache-Control` plus a fresh response-level ETag for 200 responses (the
content type built by this server is never NULL), `no-store` otherwise. -/
def response_cache_headers (resp : http_response_t) (now : Nat) : String :=
  if resp.status_code = 200 then
    let etag := mk_etag resp.content_length now
    if startsWithB resp.content_type "text/html" then
      "Cache-Control: public, max-age=3600\r\nETag: " ++ etag ++ "\r\n"
    else if startsWithB resp.content_type "text/css" ||
        startsWithB resp.content_type "application/javascript" then
      "Cache-Control: public, max-age=604800\r\nETag: " ++ etag ++ "\r\n"
    else if startsWithB resp.content_type "image/" then
      "Cache-Control: public, max-age=2592000\r\nETag: " ++ etag ++ "\r\n"
    else
      "Cache-Control: public, max-age=86400\r\nETag: " ++ etag ++ "\r\n"
  else
    "Cache-Control: no-store\r\n"

/-- The fields of the serialized response header, in the order of the
`snprintf` format string of `send_http_response`. -/
structure http_header_t where
  status_code : Int
  status_text : String
  date : String
  content_type : String
  content_length : Nat
  cache_headers : String
  encoding_header : String
  connection : String
deriving DecidableEq

/-- The exact header bytes produced by the `snprintf` of
`send_http_response`. -/
def render_header (h : http_header_t) : String :=
  "HTTP/1.1 " ++ toString h.status_code ++ " " ++ h.status_text ++ "\r\n" ++
  "Server: CServer/1.0\r\n" ++
  "Date: " ++ h.date ++ "\r\n" ++
  "Content-Type: " ++ h.content_type ++ "\r\n" ++
  "Content-Length: " ++ toString h.content_length ++ "\r\n" ++
  h.cache_headers ++
  h.encoding_header ++
  "Connection: " ++ h.connection ++ "\r\n\r\n"

/-- `send_http_response`: cache headers, the gzip decision (enabled, body
present, larger than the configured minimum, status 200, request reference
present, compressible content type, client accepts gzip, and the compression
primitive `gz` succeeds), then the header block and the body bytes written
to the socket.  `now` feeds the response-level ETag and `dateStr` is the
formatted Date header; `gz` is the external `gzip_compress_data`
collaborator. -/
def send_http_response (cfg : server_config_t) (gz : String → Option String)
    (resp : http_response_t) (client_request : Option http_request_t)
    (now : Nat) (dateStr : String) : http_header_t × String :=
  let cache_headers := response_cache_headers resp now
  let compressed : Option String :=
    match resp.body, client_request with
    | some b, some creq =>
      if cfg.enable_gzip = true ∧ cfg.gzip_min_size < resp.content_length ∧
          resp.status_code = 200 ∧
          compressible_content_type resp.content_type = true ∧
          client_accepts_gzip (some creq.accept_encoding) = true then
        gz (strTake b resp.content_length)
      else none
    | _, _ => none
  let header : http_header_t :=
    { status_code := resp.status_code
      status_text := resp.status_text
      date := dateStr
      content_type := resp.content_type
      content_length := match compressed with | some c => c.length | none => resp.content_length
      cache_headers := cache_headers
      encoding_header :=
        match compressed with
        | some _ => "Content-Encoding: gzip\r\n"
        | none => ""
      connection := if resp.keep_alive then "keep-alive" else "close" }
  let body_bytes : String :=
    match resp.body with
    | some b =>
      if 0 < resp.content_length then
        match compressed with
        | some c => c
        | none => strTake b resp.content_length
      else ""
    | none => ""
  (header, body_bytes)

/-! ## Concrete instances used by the witness theorems -/

/-- A rate-limiting configuration: 3 requests per 10-second window. -/
def cfg_rl : server_config_t :=
  { doc_root := "", enable_gzip := false, gzip_min_size := 0
    enable_rate_limit := true, rate_limit_max := 3, rate_limit_interval := 10 }

/-- A rate-limiting configuration with maximum 2. -/
def cfg_rl2 : server_config_t := { cfg_rl with rate_limit_max := 2 }

/-- A rate-limiting configuration with maximum 5. -/
def cfg_rl5 : server_config_t := { cfg_rl with rate_limit_max := 5 }

/-- All requests at the same instant. -/
def ts_const : Nat → Int := fun _ => 100

/-- A slot owned by "Aa" whose quota is exhausted: the full ring holds
in-window stamps. -/
def entry_Aa : rate_limit_entry_t :=
  { ip := "Aa", timestamps := List.replicate 1000 100, current_index := 0, count := 1000 }

/-- A table whose slot 64 (the common hash of "Aa" and "BB") is exhausted
by "Aa". -/
def table_Aa : Nat → rate_limit_entry_t :=
  fun h => if h = ip_hash "Aa" then entry_Aa else freshEntry

/-- A slot owned by "9.9.9.9" whose two recorded stamps are stale. -/
def entry_old : rate_limit_entry_t :=
  { ip := "9.9.9.9", timestamps := 5 :: 7 :: List.replicate 998 0
    current_index := 2, count := 2 }

/-- A table holding only the stale "9.9.9.9" history. -/
def table_old : Nat → rate_limit_entry_t :=
  fun h => if h = ip_hash "9.9.9.9" then entry_old else freshEntry

/-- A full two-slot queue. -/
def pool_full : thread_pool_t :=
  { queue := [some ⟨7, 0⟩, some ⟨8, 0⟩], queue_size := 2, size := 1
    head := 0, tail := 0, count := 2, shutdown := false }

/-- A pool whose shutdown flag is set. -/
def pool_shut : thread_pool_t :=
  { queue := [none], queue_size := 1, size := 1
    head := 0, tail := 0, count := 0, shutdown := true }

/-- HTTP configuration over docroot `/www` with gzip for bodies over 1024
bytes. -/
def cfg_www : server_config_t :=
  { doc_root := "/www", enable_gzip := true, gzip_min_size := 1024
    enable_rate_limit := false, rate_limit_max := 100, rate_limit_interval := 60 }

/-- A document tree: a directory `/www/subdir` and a 5-byte text file
`/www/a.txt` with mtime 7. -/
def fs_www : String → Option fs_node := fun p =>
  if p = "/www/subdir" then some (fs_node.dir 4096 900)
  else if p = "/www/a.txt" then some (fs_node.file "hello" 7 true)
  else none

/-- `GET /subdir` (existing directory, no trailing slash). -/
def req_subdir : http_request_t :=
  { method := "GET", path := "/subdir", if_none_match := ""
    accept_encoding := "", keep_alive := false }

/-- `GET /a.txt` carrying the file's current validator. -/
def req_etag : http_request_t :=
  { method := "GET", path := "/a.txt", if_none_match := "W/\"5-7\""
    accept_encoding := "", keep_alive := true }

/-- `HEAD /a.txt`. -/
def req_head : http_request_t :=
  { method := "HEAD", path := "/a.txt", if_none_match := ""
    accept_encoding := "", keep_alive := true }

/-- Gzip configuration with a 16-byte minimum. -/
def cfg_gz : server_config_t := { cfg_www with gzip_min_size := 16 }

/-- A 64-byte compressible body. -/
def body64 : String := String.mk (List.replicate 64 'a')

/-- A 200 `text/html` response carrying `body64`. -/
def resp64 : http_response_t :=
  { status_code := 200, status_text := "OK", content_type := MIME_HTML
    content_length := 64, body := some body64, keep_alive := true }

/-- A stub compression primitive returning the first 10 bytes. -/
def gzTen : String → Option String := fun s => some (strTake s 10)

/-- A request whose Accept-Encoding lists gzip. -/
def req_accept_gzip : http_request_t :=
  { method := "GET", path := "/", if_none_match := ""
    accept_encoding := "gzip", keep_alive := true }

/-- A request whose Accept-Encoding is identity. -/
def req_accept_identity : http_request_t :=
  { req_accept_gzip with accept_encoding := "identity" }

/-- A request whose Accept-Encoding is "gzip;q=0" (gzip refused in HTTP
semantics). -/
def req_gzip_q0 : http_request_t :=
  { req_accept_gzip with accept_encoding := "gzip;q=0" }

/-! ## Helper lemmas: strings and lists -/

theorem strTake_self (s : String) : strTake s s.length = s := by
  cases s with
  | mk data => simp [strTake, String.toList, String.length]

theorem leadsList_iff (n : List Char) :
    ∀ h : List Char, leadsList n h = true ↔ ∃ t, h = n ++ t := by
  induction n with
  | nil => intro h; simp [leadsList]
  | cons a as ih =>
    intro h
    cases h with
    | nil =>
      simp [leadsList]
    | cons b bs =>
      simp only [leadsList, Bool.and_eq_true, beq_iff_eq, ih]
      constructor
      · rintro ⟨rfl, t, rfl⟩; exact ⟨t, rfl⟩
      · rintro ⟨t, ht⟩
        injection ht with h1 h2
        exact ⟨h1.symm, t, h2⟩

theorem containsSubList_iff (n : List Char) :
    ∀ h : List Char, containsSubList n h = true ↔ ∃ pre post, h = pre ++ n ++ post := by
  intro h
  induction h with
  | nil =>
    simp [containsSubList, List.isEmpty_iff]
  | cons c cs ih =>
    simp only [containsSubList, Bool.or_eq_true, ih, leadsList_iff]
    constructor
    · rintro (⟨t, ht⟩ | ⟨pre, post, rfl⟩)
      · exact ⟨[], t, by simp [ht]⟩
      · exact ⟨c :: pre, post, rfl⟩
    · rintro ⟨pre, post, hyp⟩
      cases pre with
      | nil => exact Or.inl ⟨post, by simpa using hyp⟩
      | cons p ps =>
        right
        injection hyp with h1 h2
        exact ⟨ps, post, h2⟩

theorem strContains_iff (s t : String) :
    strContains s t = true ↔ ∃ pre post, s.toList = pre ++ t.toList ++ post := by
  simp [strContains, containsSubList_iff]

theorem strContains_append (pre mid post : String) :
    strContains (pre ++ mid ++ post) mid = true := by
  rw [strContains_iff]
  exact ⟨pre.toList, post.toList, by simp [String.toList]⟩

theorem mk_etag_toList_ne_nil (a b : Nat) : (mk_etag a b).toList ≠ [] := by
  simp only [mk_etag, String.toList, String.data_append]
  simp

theorem strContains_empty_hay (t : String) (h : t.toList ≠ []) :
    strContains "" t = false := by
  have : ("" : String).toList = [] := rfl
  simp [strContains, this, containsSubList, List.isEmpty_iff]
  exact fun hyp => h (by simpa [String.toList] using hyp)

/-! ## Helper lemmas: circular indices and buffer cells -/

theorem add_mod_inj {size head i j : Nat} (hi : i < size) (hj : j < size)
    (h : (head + i) % size = (head + j) % size) : i = j := by
  have h1 : i ≡ j [MOD size] := Nat.ModEq.add_left_cancel' head h
  have h2 : i % size = j % size := h1
  rwa [Nat.mod_eq_of_lt hi, Nat.mod_eq_of_lt hj] at h2

theorem getD_set_self {α : Type} (l : List α) (i : Nat) (a d : α) (h : i < l.length) :
    (l.set i a).getD i d = a := by
  induction l generalizing i with
  | nil => simp at h
  | cons x xs ih =>
    cases i with
    | zero => simp [List.set]
    | succ k => simpa [List.set] using ih k (by simpa using h)

theorem getD_set_ne {α : Type} (l : List α) (i j : Nat) (a d : α) (h : i ≠ j) :
    (l.set i a).getD j d = l.getD j d := by
  induction l generalizing i j with
  | nil => simp [List.set]
  | cons x xs ih =>
    cases i with
    | zero =>
      cases j with
      | zero => exact absurd rfl h
      | succ m => simp [List.set]
    | succ k =>
      cases j with
      | zero => simp [List.set]
      | succ m => simpa [List.set] using ih k m (fun hyp => h (by rw [hyp]))

theorem set_append_len {α : Type} (l₁ l₂ : List α) (a : α) :
    (l₁ ++ l₂).set l₁.length a = l₁ ++ l₂.set 0 a := by
  induction l₁ with
  | nil => simp
  | cons x xs ih => simp [List.set, ih]

theorem filterMap_congr_mem {α β : Type} {f g : α → Option β} :
    ∀ {l : List α}, (∀ a ∈ l, f a = g a) → l.filterMap f = l.filterMap g := by
  intro l
  induction l with
  | nil => intro; rfl
  | cons x xs ih =>
    intro h
    rw [List.filterMap_cons, List.filterMap_cons, h x (List.mem_cons_self x xs),
      ih (fun a ha => h a (List.mem_cons_of_mem x ha))]

/-! ## Helper lemmas: rate limiter -/

theorem rl_stamps_take (ts : Nat → Int) (k : Nat) :
    (rl_stamps ts k).take k = (List.range k).map ts := by
  have hlen : ((List.range k).map ts).length = k := by simp
  calc (rl_stamps ts k).take k
      = ((List.range k).map ts ++ List.replicate (1000 - k) 0).take
          ((List.range k).map ts).length := by rw [rl_stamps, hlen]
    _ = (List.range k).map ts := List.take_left _ _

theorem rl_slot_countP (cfg : server_config_t) (ts : Nat → Int) (k : Nat) (now : Int)
    (hvalid : ∀ i, i < k → now - cfg.rate_limit_interval ≤ ts i) :
    ((rl_stamps ts k).take k).countP
        (fun t => decide (now - cfg.rate_limit_interval ≤ t)) = k := by
  rw [rl_stamps_take]
  have hall : ∀ t ∈ (List.range k).map ts,
      (fun t => decide (now - cfg.rate_limit_interval ≤ t)) t = true := by
    intro t ht
    rcases List.mem_map.mp ht with ⟨i, hi, rfl⟩
    exact decide_eq_true (hvalid i (List.mem_range.mp hi))
  calc ((List.range k).map ts).countP (fun t => decide (now - cfg.rate_limit_interval ≤ t))
      = ((List.range k).map ts).length := List.countP_eq_length.mpr hall
    _ = k := by simp

theorem rl_slot_reset (ip : String) (ts : Nat → Int) (k : Nat)
    (hip : strTake ip 45 = ip) :
    (if (rl_slot ip ts k).count = 0 ∨ (rl_slot ip ts k).ip ≠ ip then
        { rl_slot ip ts k with ip := strTake ip 45, count := 0, current_index := 0 }
      else rl_slot ip ts k) = { rl_slot ip ts k with ip := ip } := by
  by_cases hk : k = 0
  · subst hk
    simp [rl_slot, hip]
  · rw [if_neg ?hreset]
    case hreset =>
      rintro (h0 | hne)
      · exact hk h0
      · exact hne (by simp [rl_slot, hk])
    simp [rl_slot, hk]

theorem check_entry_rl_slot_limited (cfg : server_config_t) (ip : String)
    (ts : Nat → Int) (k : Nat)
    (hip : strTake ip 45 = ip)
    (hvalid : ∀ i, i < k → ts k - cfg.rate_limit_interval ≤ ts i)
    (hlim : cfg.rate_limit_max ≤ (k : Int)) :
    check_rate_limit_entry cfg (rl_slot ip ts k) ip (ts k)
      = (true, { rl_slot ip ts k with ip := ip }) := by
  simp only [check_rate_limit_entry]
  rw [rl_slot_reset ip ts k hip]
  simp only [rl_slot]
  rw [rl_slot_countP cfg ts k (ts k) hvalid]
  rw [if_pos hlim]

theorem check_entry_rl_slot_allowed (cfg : server_config_t) (ip : String)
    (ts : Nat → Int) (k : Nat)
    (hip : strTake ip 45 = ip) (hk : k < 1000)
    (hvalid : ∀ i, i < k → ts k - cfg.rate_limit_interval ≤ ts i)
    (hlim : (k : Int) < cfg.rate_limit_max) :
    check_rate_limit_entry cfg (rl_slot ip ts k) ip (ts k)
      = (false, rl_slot ip ts (k + 1)) := by
  have hstamp : (rl_stamps ts k).set k (ts k) = rl_stamps ts (k + 1) := by
    have hlen : ((List.range k).map ts).length = k := by simp
    have hrep : List.replicate (1000 - k) (0 : Int)
        = 0 :: List.replicate (1000 - (k + 1)) 0 := by
      have h1000 : 1000 - k = (1000 - (k + 1)) + 1 := by omega
      rw [h1000, List.replicate_succ]
    calc (rl_stamps ts k).set k (ts k)
        = ((List.range k).map ts ++ List.replicate (1000 - k) 0).set
            ((List.range k).map ts).length (ts k) := by rw [rl_stamps, hlen]
      _ = (List.range k).map ts ++ (List.replicate (1000 - k) (0 : Int)).set 0 (ts k) :=
          set_append_len _ _ _
      _ = (List.range k).map ts ++ ts k :: List.replicate (1000 - (k + 1)) 0 := by
          rw [hrep]; rfl
      _ = rl_stamps ts (k + 1) := by
          rw [rl_stamps, List.range_succ, List.map_append]; simp
  simp only [check_rate_limit_entry]
  rw [rl_slot_reset ip ts k hip]
  simp only [rl_slot]
  rw [rl_slot_countP cfg ts k (ts k) hvalid]
  rw [if_neg (not_le.mpr hlim)]
  simp [hstamp, hk, Nat.mod_add_mod, Nat.mod_eq_of_lt hk]

theorem rl_iter_slot (cfg : server_config_t) (T0 : Nat → rate_limit_entry_t)
    (ip : String) (ts : Nat → Int) (n : Nat)
    (hen : cfg.enable_rate_limit = true)
    (hmaxn : (n : Int) = cfg.rate_limit_max)
    (hcap : n ≤ 1000)
    (hip : strTake ip 45 = ip)
    (hfresh : T0 (ip_hash ip) = freshEntry)
    (hmono : ∀ i j, i ≤ j → ts i ≤ ts j)
    (hspan : ts n - ts 0 ≤ cfg.rate_limit_interval) :
    ∀ k, k ≤ n → rl_table_iter cfg T0 ip ts k (ip_hash ip) = rl_slot ip ts k := by
  have hvalid : ∀ k, k ≤ n → ∀ i, i < k → ts k - cfg.rate_limit_interval ≤ ts i := by
    intro k hk i hi
    have h1 : ts k ≤ ts n := hmono k n hk
    have h2 : ts 0 ≤ ts i := hmono 0 i (Nat.zero_le i)
    linarith
  intro k
  induction k with
  | zero =>
    intro _
    rw [rl_table_iter, hfresh]
    simp [freshEntry, rl_slot, rl_stamps]
  | succ k ih =>
    intro hk1
    have hk : k ≤ n := Nat.le_of_succ_le hk1
    have hkn : k < n := Nat.lt_of_succ_le hk1
    rw [rl_table_iter]
    simp only [check_rate_limit, hen]
    simp only [Bool.true_eq_false, if_false]
    rw [Function.update_same, ih hk]
    rw [check_entry_rl_slot_allowed cfg ip ts k hip
      (Nat.lt_of_lt_of_le hkn hcap) (hvalid k hk) (by rw [← hmaxn]; exact_mod_cast hkn)]

/-- C1 (amended): with rate limiting enabled, a window length `W ≥ 0`, a
configured maximum `n ≤ 1000` (the ring capacity), and a fresh table slot
for `ip`, for every `k < n` the `(k+1)`-th `check_rate_limit` call within
one window is allowed; after any `k ≤ n` calls the slot has recorded
exactly the `k` call timestamps; and the `(n+1)`-th call within the same
window is limited and records nothing. -/
theorem check_rate_limit_window_fills (cfg : server_config_t)
    (T0 : Nat → rate_limit_entry_t) (ip : String) (ts : Nat → Int) (n : Nat)
    (hen : cfg.enable_rate_limit = true)
    (hmaxn : (n : Int) = cfg.rate_limit_max)
    (hcap : n ≤ 1000)
    (hip : strTake ip 45 = ip)
    (hfresh : T0 (ip_hash ip) = freshEntry)
    (hmono : ∀ i j, i ≤ j → ts i ≤ ts j)
    (hspan : ts n - ts 0 ≤ cfg.rate_limit_interval) :
    (∀ k, k < n →
        (check_rate_limit cfg (rl_table_iter cfg T0 ip ts k) ip (ts k)).1 = false)
    ∧ (∀ k, k ≤ n →
        (rl_table_iter cfg T0 ip ts k (ip_hash ip)).count = k
        ∧ (rl_table_iter cfg T0 ip ts k (ip_hash ip)).timestamps.take k
            = (List.range k).map ts)
    ∧ ((check_rate_limit cfg (rl_table_iter cfg T0 ip ts n) ip (ts n)).1 = true
        ∧ ((check_rate_limit cfg (rl_table_iter cfg T0 ip ts n) ip (ts n)).2 (ip_hash ip)).timestamps
            = (rl_table_iter cfg T0 ip ts n (ip_hash ip)).timestamps
        ∧ ((check_rate_limit cfg (rl_table_iter cfg T0 ip ts n) ip (ts n)).2 (ip_hash ip)).count
            = (rl_table_iter cfg T0 ip ts n (ip_hash ip)).count) := by
  have hvalid : ∀ k, k ≤ n → ∀ i, i < k → ts k - cfg.rate_limit_interval ≤ ts i := by
    intro k hk i hi
    have h1 : ts k ≤ ts n := hmono k n hk
    have h2 : ts 0 ≤ ts i := hmono 0 i (Nat.zero_le i)
    linarith
  have hslot := rl_iter_slot cfg T0 ip ts n hen hmaxn hcap hip hfresh hmono hspan
  refine ⟨?_, ?_, ?_⟩
  · intro k hkn
    simp only [check_rate_limit, hen, Bool.true_eq_false, if_false]
    rw [hslot k (Nat.le_of_lt hkn)]
    rw [check_entry_rl_slot_allowed cfg ip ts k hip
      (Nat.lt_of_lt_of_le hkn hcap) (hvalid k (Nat.le_of_lt hkn))
      (by rw [← hmaxn]; exact_mod_cast hkn)]
  · intro k hk
    rw [hslot k hk]
    exact ⟨rfl, rl_stamps_take ts k⟩
  · have hlimited := check_entry_rl_slot_limited cfg ip ts n hip (hvalid n le_rfl)
      (by rw [← hmaxn])
    simp only [check_rate_limit, hen, Bool.true_eq_false, if_false]
    rw [hslot n le_rfl, Function.update_same, hlimited]
    exact ⟨rfl, rfl, rfl⟩

/-- C1 counterexample to the claim as stated: with maximum 2, taking
`n = 1 ≤ 2`, the claim asserts that the `(1+1)`-nd call of a fresh address
within the window is limited; the code admits it (only the third is
limited). -/
theorem check_rate_limit_window_claim_counterexample :
    (1 : Int) ≤ cfg_rl2.rate_limit_max
    ∧ (check_rate_limit cfg_rl2 freshTable "1.2.3.4" 100).1 = false
    ∧ (check_rate_limit cfg_rl2
        (rl_table_iter cfg_rl2 freshTable "1.2.3.4" ts_const 1) "1.2.3.4"
        (ts_const 1)).1 = false := by
  refine ⟨by decide, by decide, by decide⟩

/-- C1 witness: configuration with maximum 3, all calls at time 100: the
fourth call is limited. -/
theorem check_rate_limit_window_fills_witness :
    strTake "1.2.3.4" 45 = "1.2.3.4"
    ∧ (check_rate_limit cfg_rl
        (rl_table_iter cfg_rl freshTable "1.2.3.4" ts_const 3) "1.2.3.4"
        (ts_const 3)).1 = true :=
  ⟨by decide,
    (check_rate_limit_window_fills cfg_rl freshTable "1.2.3.4" ts_const 3
      rfl (by decide) (by decide) (by decide) rfl
      (fun i j _ => le_refl 100) (by decide)).2.2.1⟩

/-- C3: two distinct addresses in the same table slot share no rate-limit
history: when the stored address differs from the incoming one the slot is
reset and reassigned, so the incoming address's first check is allowed (for
any slot contents, even an exhausted quota), the slot now holds only the new
address and its single fresh timestamp, and no other slot changes. -/
theorem check_rate_limit_eviction (cfg : server_config_t)
    (T : Nat → rate_limit_entry_t) (a b : String) (now : Int)
    (hen : cfg.enable_rate_limit = true)
    (hmax : 1 ≤ cfg.rate_limit_max)
    (hcoll : ip_hash a = ip_hash b)
    (hab : a ≠ b)
    (hstored : (T (ip_hash a)).ip = a) :
    (check_rate_limit cfg T b now).1 = false
    ∧ ((check_rate_limit cfg T b now).2 (ip_hash b)).ip = strTake b 45
    ∧ ((check_rate_limit cfg T b now).2 (ip_hash b)).count = 1
    ∧ ((check_rate_limit cfg T b now).2 (ip_hash b)).current_index = 1
    ∧ ((check_rate_limit cfg T b now).2 (ip_hash b)).timestamps
        = (T (ip_hash b)).timestamps.set 0 now
    ∧ ∀ h, h ≠ ip_hash b → (check_rate_limit cfg T b now).2 h = T h := by
  have hne : (T (ip_hash b)).ip ≠ b := by
    rw [← hcoll, hstored]; exact hab
  have hstep : check_rate_limit_entry cfg (T (ip_hash b)) b now
      = (false,
          { ip := strTake b 45
            timestamps := (T (ip_hash b)).timestamps.set 0 now
            current_index := 1
            count := 1 }) := by
    simp only [check_rate_limit_entry]
    rw [if_pos (Or.inr hne)]
    simp only [List.take_zero, List.countP_nil, Nat.cast_zero]
    rw [if_neg (by omega)]
    norm_num
  simp only [check_rate_limit, hen, Bool.true_eq_false, if_false]
  rw [hstep]
  refine ⟨rfl, ?_, ?_, ?_, ?_, ?_⟩
  · rw [Function.update_same]
  · rw [Function.update_same]
  · rw [Function.update_same]
  · rw [Function.update_same]
  · intro h hh
    exact Function.update_noteq hh _ _

/-- C3 witness: "Aa" and "BB" hash to the same slot; "Aa" has exhausted its
quota (the whole ring is in-window, so its own next check is limited), yet
"BB"'s first check is allowed. -/
theorem check_rate_limit_eviction_witness :
    ip_hash "Aa" = ip_hash "BB"
    ∧ ("Aa" : String) ≠ "BB"
    ∧ (check_rate_limit cfg_rl5 table_Aa "Aa" 100).1 = true
    ∧ (check_rate_limit cfg_rl5 table_Aa "BB" 100).1 = false :=
  ⟨by decide, by decide, by decide,
    (check_rate_limit_eviction cfg_rl5 table_Aa "Aa" "BB" 100
      rfl (by decide) (by decide) (by decide) (by decide)).1⟩

/-- C9: with rate limiting enabled and a positive configured maximum, if
every timestamp recorded in the address's slot is older than
`now - windowSeconds`, the next `check_rate_limit` call for that address is
allowed, whatever the slot's history. -/
theorem check_rate_limit_expiry (cfg : server_config_t)
    (T : Nat → rate_limit_entry_t) (ip : String) (now : Int)
    (hen : cfg.enable_rate_limit = true)
    (hmax : 1 ≤ cfg.rate_limit_max)
    (hold : ∀ t ∈ (T (ip_hash ip)).timestamps.take (T (ip_hash ip)).count,
        t < now - cfg.rate_limit_interval) :
    (check_rate_limit cfg T ip now).1 = false := by
  simp only [check_rate_limit, hen, Bool.true_eq_false, if_false]
  simp only [check_rate_limit_entry]
  by_cases hreset : (T (ip_hash ip)).count = 0 ∨ (T (ip_hash ip)).ip ≠ ip
  · rw [if_pos hreset]
    simp only [List.take_zero, List.countP_nil, Nat.cast_zero]
    rw [if_neg (by omega)]
  · rw [if_neg hreset]
    have hzero : ((T (ip_hash ip)).timestamps.take (T (ip_hash ip)).count).countP
        (fun t => decide (now - cfg.rate_limit_interval ≤ t)) = 0 := by
      refine List.countP_eq_zero.mpr ?_
      intro t ht
      simpa using not_le.mpr (hold t ht)
    rw [hzero]
    simp only [Nat.cast_zero]
    rw [if_neg (by omega)]

/-- C9 witness: a slot whose two recorded stamps (5 and 7) are far older
than `now - window = 90` admits the next request. -/
theorem check_rate_limit_expiry_witness :
    (∀ t ∈ (table_old (ip_hash "9.9.9.9")).timestamps.take
        (table_old (ip_hash "9.9.9.9")).count,
        t < 100 - cfg_rl.rate_limit_interval)
    ∧ (check_rate_limit cfg_rl table_old "9.9.9.9" 100).1 = false :=
  ⟨by decide,
    check_rate_limit_expiry cfg_rl table_old "9.9.9.9" 100
      rfl (by decide) (by decide)⟩

/-! ## Worker-pool theorems -/

theorem thread_pool_add_full (p : thread_pool_t) (t : task_t)
    (hc : p.count = p.queue_size) : thread_pool_add p t = (-1, p) := by
  unfold thread_pool_add
  rw [if_pos hc]

theorem thread_pool_add_shutdown_eq (p : thread_pool_t) (t : task_t)
    (hc : p.count ≠ p.queue_size) (hs : p.shutdown = true) :
    thread_pool_add p t = (-1, p) := by
  unfold thread_pool_add
  rw [if_neg hc, if_pos hs]

theorem thread_pool_add_ok (p : thread_pool_t) (t : task_t)
    (hc : p.count ≠ p.queue_size) (hs : p.shutdown = false) :
    thread_pool_add p t
      = (0, { p with queue := p.queue.set p.tail (some t)
                     tail := (p.tail + 1) % p.queue_size
                     count := p.count + 1 }) := by
  unfold thread_pool_add
  rw [if_neg hc, if_neg (by rw [hs]; exact Bool.false_ne_true)]

theorem worker_dequeue_some (p : thread_pool_t)
    (hs : p.shutdown = false) (hc : p.count ≠ 0) :
    worker_dequeue p
      = some (p.queue.getD p.head none,
          { p with queue := p.queue.set p.head none
                   head := (p.head + 1) % p.queue_size
                   count := p.count - 1 }) := by
  unfold worker_dequeue
  rw [if_neg (by rw [hs]; exact Bool.false_ne_true), if_neg hc]

theorem filterMap_singleton_some {α β : Type} (f : α → Option β) (a : α) (b : β)
    (h : f a = some b) : [a].filterMap f = [b] := by
  simp [List.filterMap_cons, h]

theorem filterMap_cons_some' {α β : Type} (f : α → Option β) (a : α) (l : List α)
    (b : β) (h : f a = some b) : (a :: l).filterMap f = b :: l.filterMap f := by
  simp [List.filterMap_cons, h]

/-- C4: `thread_pool_add` fails with -1 exactly when the queue is full or
the pool is shutting down, and a failed submission leaves the pool
unchanged; a successful submission appends the task at the back of the
queued sequence, a worker dequeue removes the front of that sequence (FIFO),
and once a dequeue frees a cell of a full queue the next submission
succeeds. -/
theorem thread_pool_add_fifo (p : thread_pool_t) (t : task_t) (hwf : pool_wf p) :
    (((thread_pool_add p t).1 = -1) ↔ (p.count = p.queue_size ∨ p.shutdown = true))
    ∧ ((thread_pool_add p t).1 = -1 → (thread_pool_add p t).2 = p)
    ∧ ((thread_pool_add p t).1 = 0 → absQ (thread_pool_add p t).2 = absQ p ++ [t])
    ∧ (p.shutdown = false → 0 < p.count →
        ∃ t0 p', worker_dequeue p = some (some t0, p') ∧ absQ p = t0 :: absQ p')
    ∧ (p.count = p.queue_size → p.shutdown = false →
        ∃ x p', worker_dequeue p = some (x, p') ∧ (thread_pool_add p' t).1 = 0) := by
  obtain ⟨hlen, hszpos, hcnt, hhead, htail, hcells⟩ := hwf
  refine ⟨?_, ?_, ?_, ?_, ?_⟩
  · constructor
    · intro hfail
      by_cases hc : p.count = p.queue_size
      · exact Or.inl hc
      · by_cases hs : p.shutdown = true
        · exact Or.inr hs
        · rw [thread_pool_add_ok p t hc (Bool.not_eq_true _ ▸ hs)] at hfail
          exact absurd hfail (by simp)
    · rintro (hc | hs)
      · rw [thread_pool_add_full p t hc]
      · by_cases hc : p.count = p.queue_size
        · rw [thread_pool_add_full p t hc]
        · rw [thread_pool_add_shutdown_eq p t hc hs]
  · intro hfail
    by_cases hc : p.count = p.queue_size
    · rw [thread_pool_add_full p t hc]
    · by_cases hs : p.shutdown = true
      · rw [thread_pool_add_shutdown_eq p t hc hs]
      · rw [thread_pool_add_ok p t hc (Bool.not_eq_true _ ▸ hs)] at hfail
        exact absurd hfail (by simp)
  · intro hok
    by_cases hc : p.count = p.queue_size
    · rw [thread_pool_add_full p t hc] at hok
      exact absurd hok (by simp)
    · by_cases hs : p.shutdown = true
      · rw [thread_pool_add_shutdown_eq p t hc hs] at hok
        exact absurd hok (by simp)
      · have hclt : p.count < p.queue_size := lt_of_le_of_ne hcnt hc
        rw [thread_pool_add_ok p t hc (Bool.not_eq_true _ ▸ hs)]
        show (List.range (p.count + 1)).filterMap
            (fun i => (p.queue.set p.tail (some t)).getD
              ((p.head + i) % p.queue_size) none)
          = absQ p ++ [t]
        rw [List.range_succ, List.filterMap_append]
        congr 1
        · refine filterMap_congr_mem ?_
          intro i hi
          have hilt : i < p.count := List.mem_range.mp hi
          refine getD_set_ne _ _ _ _ _ ?_
          rw [htail]
          intro heq
          have hieq : i = p.count :=
            add_mod_inj (lt_of_lt_of_le hilt hcnt) hclt heq.symm
          omega
        · have htl : p.tail < p.queue.length := by
            rw [hlen, htail]; exact Nat.mod_lt _ hszpos
          have hcell : (fun i => (p.queue.set p.tail (some t)).getD
              ((p.head + i) % p.queue_size) none) p.count = some t := by
            show (p.queue.set p.tail (some t)).getD
              ((p.head + p.count) % p.queue_size) none = some t
            rw [← htail]
            exact getD_set_self _ _ _ _ htl
          rw [filterMap_singleton_some
            (fun i => (p.queue.set p.tail (some t)).getD
              ((p.head + i) % p.queue_size) none) p.count t hcell]
  · intro hs hcpos
    have hcne : p.count ≠ 0 := Nat.pos_iff_ne_zero.mp hcpos
    have hdq := worker_dequeue_some p hs hcne
    have hcell := hcells 0 hcpos
    rw [Nat.add_zero, Nat.mod_eq_of_lt hhead] at hcell
    rcases Option.isSome_iff_exists.mp hcell with ⟨t0, ht0⟩
    refine ⟨t0,
      { p with queue := p.queue.set p.head none
               head := (p.head + 1) % p.queue_size
               count := p.count - 1 }, by rw [hdq, ht0], ?_⟩
    have hf0 : (fun i => p.queue.getD ((p.head + i) % p.queue_size) none) 0
        = some t0 := by
      show p.queue.getD ((p.head + 0) % p.queue_size) none = some t0
      rw [Nat.add_zero, Nat.mod_eq_of_lt hhead]
      exact ht0
    have hsplit : p.count = (p.count - 1) + 1 := (Nat.succ_pred_eq_of_pos hcpos).symm
    conv_lhs => rw [absQ, hsplit, List.range_succ_eq_map]
    rw [filterMap_cons_some'
      (fun i => p.queue.getD ((p.head + i) % p.queue_size) none) 0
      (List.map Nat.succ (List.range (p.count - 1))) t0 hf0, List.filterMap_map]
    congr 1
    show (List.range (p.count - 1)).filterMap
        ((fun i => p.queue.getD ((p.head + i) % p.queue_size) none) ∘ Nat.succ)
      = (List.range (p.count - 1)).filterMap
        (fun i => (p.queue.set p.head none).getD
          (((p.head + 1) % p.queue_size + i) % p.queue_size) none)
    refine filterMap_congr_mem ?_
    intro i hi
    have hilt : i < p.count - 1 := List.mem_range.mp hi
    have hidx : ((p.head + 1) % p.queue_size + i) % p.queue_size
        = (p.head + Nat.succ i) % p.queue_size := by
      rw [Nat.mod_add_mod]
      congr 1
      omega
    show p.queue.getD ((p.head + Nat.succ i) % p.queue_size) none
      = (p.queue.set p.head none).getD
        (((p.head + 1) % p.queue_size + i) % p.queue_size) none
    rw [hidx]
    refine (getD_set_ne _ _ _ _ _ ?_).symm
    intro heq
    have hh0 : (p.head + 0) % p.queue_size = p.head := by
      rw [Nat.add_zero]; exact Nat.mod_eq_of_lt hhead
    have hcontra : Nat.succ i = 0 := by
      refine @add_mod_inj p.queue_size p.head (Nat.succ i) 0 ?_ hszpos ?_
      · omega
      · rw [hh0]; exact heq.symm
    exact Nat.succ_ne_zero i hcontra
  · intro hc hs
    have hcpos : 0 < p.count := by rw [hc]; exact hszpos
    have hdq := worker_dequeue_some p hs (Nat.pos_iff_ne_zero.mp hcpos)
    refine ⟨_, _, hdq, ?_⟩
    rw [thread_pool_add_ok
      { p with queue := p.queue.set p.head none
               head := (p.head + 1) % p.queue_size
               count := p.count - 1 } t
      (by show p.count - 1 ≠ p.queue_size; omega)
      (by show p.shutdown = false; exact hs)]

/-- C4 witness: a well-formed full queue rejects the next submission. -/
theorem thread_pool_add_fifo_witness :
    pool_wf pool_full ∧ (thread_pool_add pool_full ⟨9, 0⟩).1 = -1 :=
  ⟨by decide,
    (thread_pool_add_fifo pool_full ⟨9, 0⟩ (by decide)).1.mpr (Or.inl rfl)⟩

/-- C5: in every worker-pool state reachable from a freshly created pool by
submissions, worker dequeues and shutdown requests, `0 ≤ count ≤ capacity`
holds; no step ever clears the shutdown flag once set; and once shutdown is
set every submission is rejected. -/
theorem thread_pool_state_invariant :
    (∀ (n cap : Nat) (p : thread_pool_t),
        Relation.ReflTransGen pool_step (thread_pool_create n cap) p →
        (0 : Int) ≤ (p.count : Int) ∧ p.count ≤ cap ∧ p.queue_size = cap)
    ∧ (∀ p q : thread_pool_t, pool_step p q → p.shutdown = true → q.shutdown = true)
    ∧ (∀ (p : thread_pool_t) (t : task_t), p.shutdown = true →
        (thread_pool_add p t).1 = -1) := by
  have hstep : ∀ p q : thread_pool_t, pool_step p q →
      (p.count ≤ p.queue_size → q.count ≤ q.queue_size)
      ∧ q.queue_size = p.queue_size := by
    intro p q h
    cases h with
    | add t =>
      by_cases hc : p.count = p.queue_size
      · rw [thread_pool_add_full p t hc]
        exact ⟨id, rfl⟩
      · by_cases hs : p.shutdown = true
        · rw [thread_pool_add_shutdown_eq p t hc hs]
          exact ⟨id, rfl⟩
        · rw [thread_pool_add_ok p t hc (Bool.not_eq_true _ ▸ hs)]
          exact ⟨fun hle => by simp; omega, rfl⟩
    | dequeue x p' hdq =>
      by_cases hs : p.shutdown = true
      · rw [worker_dequeue, if_pos hs] at hdq
        exact absurd hdq (by simp)
      · by_cases hc : p.count = 0
        · rw [worker_dequeue, if_neg hs, if_pos hc] at hdq
          exact absurd hdq (by simp)
        · rw [worker_dequeue_some p (Bool.not_eq_true _ ▸ hs) hc] at hdq
          simp only [Option.some.injEq, Prod.mk.injEq] at hdq
          rw [← hdq.2]
          exact ⟨fun hle => by simp; omega, rfl⟩
    | destroy =>
      by_cases hs : p.shutdown = true
      · rw [thread_pool_destroy, if_pos hs]
        exact ⟨id, rfl⟩
      · rw [thread_pool_destroy, if_neg hs]
        exact ⟨id, rfl⟩
  refine ⟨?_, ?_, ?_⟩
  · intro n cap p h
    induction h with
    | refl =>
      refine ⟨by positivity, ?_, rfl⟩
      show (thread_pool_create n cap).count ≤ cap
      simp [thread_pool_create]
    | tail hsteps hlast ih =>
      rcases ih with ⟨-, hle, hsz⟩
      rcases hstep _ _ hlast with ⟨hpres, hsz'⟩
      have hble := hpres (by rw [hsz]; exact hle)
      refine ⟨by positivity, ?_, by rw [hsz', hsz]⟩
      calc _ ≤ _ := hble
        _ = cap := by rw [hsz', hsz]
  · intro p q h hs
    cases h with
    | add t =>
      by_cases hc : p.count = p.queue_size
      · rw [thread_pool_add_full p t hc]; exact hs
      · rw [thread_pool_add_shutdown_eq p t hc hs]; exact hs
    | dequeue x p' hdq =>
      rw [worker_dequeue, if_pos hs] at hdq
      exact absurd hdq (by simp)
    | destroy =>
      rw [thread_pool_destroy, if_pos hs]; exact hs
  · intro p t hs
    by_cases hc : p.count = p.queue_size
    · rw [thread_pool_add_full p t hc]
    · rw [thread_pool_add_shutdown_eq p t hc hs]

/-- C5 witness: the freshly created pool satisfies the bound, and a pool in
shutdown rejects a submission. -/
theorem thread_pool_state_invariant_witness :
    (thread_pool_create 2 3).count ≤ 3
    ∧ (thread_pool_add pool_shut ⟨1, 1⟩).1 = -1 :=
  ⟨(thread_pool_state_invariant.1 2 3 (thread_pool_create 2 3)
      Relation.ReflTransGen.refl).2.1,
    thread_pool_state_invariant.2.2 pool_shut ⟨1, 1⟩ rfl⟩

/-! ## HTTP theorems -/

theorem handle_file_eq (cfg : server_config_t) (fs : String → Option fs_node)
    (req : http_request_t) (content : String) (mtime : Nat) (readable : Bool)
    (hm : req.method = "GET" ∨ req.method = "HEAD")
    (hfs : fs (resolve_path cfg req.path) = some (fs_node.file content mtime readable)) :
    handle_http_request cfg fs req
      = serve_resolved_file req (resolve_path cfg req.path)
          (fs_node.file content mtime readable) := by
  have hmethod : ¬(req.method ≠ "GET" ∧ req.method ≠ "HEAD") := by
    rcases hm with h | h <;> simp [h]
  simp only [handle_http_request]
  rw [if_neg hmethod, hfs]

theorem serve_file_304 (req : http_request_t) (path : String)
    (content : String) (mtime : Nat) (readable : Bool)
    (hmatch : strContains req.if_none_match (mk_etag content.length mtime) = true) :
    serve_resolved_file req path (fs_node.file content mtime readable)
      = { status_code := 304, status_text := "Not Modified"
          content_type := get_mime_type path, content_length := 0
          body := none, keep_alive := req.keep_alive } := by
  have hne : req.if_none_match ≠ "" := by
    intro h
    rw [h, strContains_empty_hay _ (mk_etag_toList_ne_nil _ _)] at hmatch
    exact Bool.false_ne_true hmatch
  simp only [serve_resolved_file, fs_stat_size, fs_stat_mtime]
  rw [if_pos ⟨hne, hmatch⟩]

theorem serve_file_200 (req : http_request_t) (path : String)
    (content : String) (mtime : Nat)
    (hmatch : strContains req.if_none_match (mk_etag content.length mtime) = false) :
    serve_resolved_file req path (fs_node.file content mtime true)
      = if req.method = "HEAD" then
          build_http_response req.keep_alive 200 (get_mime_type path) none
        else
          build_http_response req.keep_alive 200 (get_mime_type path) (some content) := by
  simp only [serve_resolved_file, fs_stat_size, fs_stat_mtime, fs_read]
  rw [if_neg ?hcond]
  case hcond =>
    rintro ⟨-, h2⟩
    rw [hmatch] at h2
    exact Bool.false_ne_true h2
  simp

theorem send_no_body (cfg : server_config_t) (gz : String → Option String)
    (resp : http_response_t) (client_request : Option http_request_t)
    (now : Nat) (dateStr : String) (hbody : resp.body = none) :
    (send_http_response cfg gz resp client_request now dateStr).1.content_length
        = resp.content_length
    ∧ (send_http_response cfg gz resp client_request now dateStr).2 = "" := by
  cases client_request with
  | none => simp [send_http_response, hbody]
  | some creq => simp [send_http_response, hbody]

/-- C6: for a GET or HEAD request resolving to a readable regular file, with
validator `W/"<size-hex>-<mtime-hex>"`: if the request's If-None-Match value
contains the validator as a substring the response is 304 with no body and
content-length 0 (the serialized response also carries content-length 0 and
empty body bytes); otherwise the file is served with status 200, a GET
carrying the full contents. -/
theorem serve_file_conditional_get (cfg : server_config_t)
    (fs : String → Option fs_node) (req : http_request_t)
    (gz : String → Option String) (now : Nat) (dateStr : String)
    (content : String) (mtime : Nat)
    (hm : req.method = "GET" ∨ req.method = "HEAD")
    (hfs : fs (resolve_path cfg req.path) = some (fs_node.file content mtime true)) :
    (strContains req.if_none_match (mk_etag content.length mtime) = true →
      (handle_http_request cfg fs req).status_code = 304
      ∧ (handle_http_request cfg fs req).body = none
      ∧ (handle_http_request cfg fs req).content_length = 0
      ∧ (send_http_response cfg gz (handle_http_request cfg fs req)
          (some req) now dateStr).1.content_length = 0
      ∧ (send_http_response cfg gz (handle_http_request cfg fs req)
          (some req) now dateStr).2 = "")
    ∧ (strContains req.if_none_match (mk_etag content.length mtime) = false →
      (handle_http_request cfg fs req).status_code = 200
      ∧ (req.method = "GET" →
        (handle_http_request cfg fs req).body = some content
        ∧ (handle_http_request cfg fs req).content_length = content.length)) := by
  constructor
  · intro hmatch
    rw [handle_file_eq cfg fs req content mtime true hm hfs,
      serve_file_304 req _ content mtime true hmatch]
    have hsend := send_no_body cfg gz
      { status_code := 304, status_text := "Not Modified"
        content_type := get_mime_type (resolve_path cfg req.path), content_length := 0
        body := none, keep_alive := req.keep_alive } (some req) now dateStr rfl
    exact ⟨rfl, rfl, rfl, hsend.1, hsend.2⟩
  · intro hmatch
    rw [handle_file_eq cfg fs req content mtime true hm hfs,
      serve_file_200 req _ content mtime hmatch]
    by_cases hh : req.method = "HEAD"
    · rw [if_pos hh]
      refine ⟨rfl, ?_⟩
      intro hg
      rw [hg] at hh
      exact absurd hh (by decide)
    · rw [if_neg hh]
      exact ⟨rfl, fun _ => ⟨rfl, rfl⟩⟩

/-- C6 witness: `GET /a.txt` with If-None-Match equal to the validator of
the 5-byte file with mtime 7 receives 304. -/
theorem serve_file_conditional_get_witness :
    strContains req_etag.if_none_match (mk_etag ("hello" : String).length 7) = true
    ∧ (handle_http_request cfg_www fs_www req_etag).status_code = 304
    ∧ (handle_http_request cfg_www fs_www req_etag).content_length = 0 :=
  ⟨by decide,
    ((serve_file_conditional_get cfg_www fs_www req_etag (fun _ => none) 0 "d"
        "hello" 7 (Or.inl rfl) (by decide)).1 (by decide)).1,
    ((serve_file_conditional_get cfg_www fs_www req_etag (fun _ => none) 0 "d"
        "hello" 7 (Or.inl rfl) (by decide)).1 (by decide)).2.2.1⟩

/-- C8: a HEAD request resolving to a readable existing file (with no
conditional validator in play) gets a 200 whose body has been discarded and
whose content-length has been zeroed before serialization: the wire response
carries content-length 0 and no body bytes, while the same request as a GET
reports the file's size. -/
theorem head_request_zeroed (cfg : server_config_t)
    (fs : String → Option fs_node) (req : http_request_t)
    (gz : String → Option String) (now : Nat) (dateStr : String)
    (content : String) (mtime : Nat)
    (hm : req.method = "HEAD")
    (hinm : req.if_none_match = "")
    (hfs : fs (resolve_path cfg req.path) = some (fs_node.file content mtime true)) :
    (handle_http_request cfg fs req).status_code = 200
    ∧ (handle_http_request cfg fs req).body = none
    ∧ (handle_http_request cfg fs req).content_length = 0
    ∧ (send_http_response cfg gz (handle_http_request cfg fs req)
        (some req) now dateStr).1.content_length = 0
    ∧ (send_http_response cfg gz (handle_http_request cfg fs req)
        (some req) now dateStr).2 = ""
    ∧ (handle_http_request cfg fs { req with method := "GET" }).content_length
        = content.length := by
  have hmatch : strContains req.if_none_match (mk_etag content.length mtime) = false := by
    rw [hinm]
    exact strContains_empty_hay _ (mk_etag_toList_ne_nil _ _)
  have hhead : handle_http_request cfg fs req
      = build_http_response req.keep_alive 200
          (get_mime_type (resolve_path cfg req.path)) none := by
    rw [handle_file_eq cfg fs req content mtime true (Or.inr hm) hfs,
      serve_file_200 req _ content mtime hmatch, if_pos hm]
  have hget : handle_http_request cfg fs { req with method := "GET" }
      = build_http_response req.keep_alive 200
          (get_mime_type (resolve_path cfg req.path)) (some content) := by
    rw [handle_file_eq cfg fs { req with method := "GET" } content mtime true
        (Or.inl rfl) hfs,
      serve_file_200 { req with method := "GET" } _ content mtime hmatch,
      if_neg (show ("GET" : String) ≠ "HEAD" from by decide)]
  rw [hhead, hget]
  have hsend := send_no_body cfg gz
    (build_http_response req.keep_alive 200
      (get_mime_type (resolve_path cfg req.path)) none) (some req) now dateStr rfl
  exact ⟨rfl, rfl, rfl, hsend.1, hsend.2, rfl⟩

/-- C8 witness: `HEAD /a.txt` answers 200 with content-length 0 while
`GET /a.txt` reports length 5. -/
theorem head_request_zeroed_witness :
    req_head.method = "HEAD"
    ∧ (handle_http_request cfg_www fs_www req_head).status_code = 200
    ∧ (handle_http_request cfg_www fs_www req_head).content_length = 0
    ∧ (handle_http_request cfg_www fs_www
        { req_head with method := "GET" }).content_length
      = ("hello" : String).length := by
  have h := head_request_zeroed cfg_www fs_www req_head (fun _ => none) 0 "d"
    "hello" 7 rfl rfl (by decide)
  exact ⟨rfl, h.1, h.2.2.1, h.2.2.2.2.2⟩

/-- C7: for a response carrying a body (with the content-length all builders
establish) and a compression primitive that succeeds, the serialized
response is gzip-compressed — `Content-Encoding: gzip` added, content-length
equal to the compressed size, compressed body bytes — exactly when
compression is enabled, the body exceeds the configured minimum, the status
is 200, the content type is compressible and the client's Accept-Encoding
accepts gzip; in every other case no encoding header is added, the
content-length equals the uncompressed size and the body is sent as is. -/
theorem send_response_gzip_policy (cfg : server_config_t)
    (gz : String → Option String) (resp : http_response_t)
    (req : http_request_t) (now : Nat) (dateStr : String) (b c : String)
    (hbody : resp.body = some b)
    (hlen : resp.content_length = b.length)
    (hgz : gz (strTake b resp.content_length) = some c) :
    ((cfg.enable_gzip = true ∧ cfg.gzip_min_size < resp.content_length ∧
        resp.status_code = 200 ∧
        compressible_content_type resp.content_type = true ∧
        client_accepts_gzip (some req.accept_encoding) = true) →
      (send_http_response cfg gz resp (some req) now dateStr).1.encoding_header
          = "Content-Encoding: gzip\r\n"
      ∧ (send_http_response cfg gz resp (some req) now dateStr).1.content_length
          = c.length
      ∧ (send_http_response cfg gz resp (some req) now dateStr).2 = c)
    ∧ (¬(cfg.enable_gzip = true ∧ cfg.gzip_min_size < resp.content_length ∧
        resp.status_code = 200 ∧
        compressible_content_type resp.content_type = true ∧
        client_accepts_gzip (some req.accept_encoding) = true) →
      (send_http_response cfg gz resp (some req) now dateStr).1.encoding_header = ""
      ∧ (send_http_response cfg gz resp (some req) now dateStr).1.content_length
          = resp.content_length
      ∧ (send_http_response cfg gz resp (some req) now dateStr).2 = b) := by
  constructor
  · intro hC
    simp only [send_http_response, hbody]
    rw [if_pos hC, hgz]
    refine ⟨rfl, rfl, ?_⟩
    have h0 : 0 < resp.content_length := lt_of_le_of_lt (Nat.zero_le _) hC.2.1
    rw [if_pos h0]
  · intro hnC
    simp only [send_http_response, hbody]
    rw [if_neg hnC]
    refine ⟨rfl, rfl, ?_⟩
    by_cases h0 : 0 < resp.content_length
    · rw [if_pos h0, hlen, strTake_self]
    · have hb0 : b.length = 0 := by
        rw [hlen] at h0
        omega
      have hbe : b = "" := by
        cases b with
        | mk d =>
          have hd : d.length = 0 := by simpa [String.length] using hb0
          rw [List.length_eq_zero.mp hd]
      rw [if_neg h0, hbe]

/-- C7 witness: a 64-byte `text/html` 200 body over a 16-byte minimum: with
`Accept-Encoding: gzip` the wire response carries `Content-Encoding: gzip`
and the compressed length 10; with `Accept-Encoding: identity` no encoding
header is added and the content-length stays 64. -/
theorem send_response_gzip_policy_witness :
    cfg_gz.enable_gzip = true
    ∧ (send_http_response cfg_gz gzTen resp64 (some req_accept_gzip) 0 "d").1.encoding_header
        = "Content-Encoding: gzip\r\n"
    ∧ (send_http_response cfg_gz gzTen resp64 (some req_accept_gzip) 0 "d").1.content_length
        = 10
    ∧ (send_http_response cfg_gz gzTen resp64 (some req_accept_identity) 0 "d").1.encoding_header
        = ""
    ∧ (send_http_response cfg_gz gzTen resp64 (some req_accept_identity) 0 "d").1.content_length
        = 64 :=
  ⟨rfl,
    ((send_response_gzip_policy cfg_gz gzTen resp64 req_accept_gzip 0 "d"
        body64 (String.mk (List.replicate 10 'a')) rfl (by decide) (by decide)).1
      (by decide)).1,
    by decide,
    ((send_response_gzip_policy cfg_gz gzTen resp64 req_accept_identity 0 "d"
        body64 (String.mk (List.replicate 10 'a')) rfl (by decide) (by decide)).2
      (by decide)).1,
    by decide⟩

/-- C10: `client_accepts_gzip` refuses a NULL value and otherwise answers
exactly whether the Accept-Encoding value contains the literal substring
"gzip" anywhere; consequently a value such as "gzip;q=0", which refuses
gzip in HTTP semantics, still triggers compression when the other
conditions hold. -/
theorem client_accepts_gzip_spec :
    (client_accepts_gzip none = false)
    ∧ (∀ s : String, client_accepts_gzip (some s) = true ↔
        ∃ pre post, s.toList = pre ++ ("gzip" : String).toList ++ post)
    ∧ (∀ (cfg : server_config_t) (gz : String → Option String)
        (resp : http_response_t) (req : http_request_t) (now : Nat)
        (dateStr : String) (b c : String),
        resp.body = some b →
        req.accept_encoding = "gzip;q=0" →
        cfg.enable_gzip = true →
        cfg.gzip_min_size < resp.content_length →
        resp.status_code = 200 →
        compressible_content_type resp.content_type = true →
        gz (strTake b resp.content_length) = some c →
        (send_http_response cfg gz resp (some req) now dateStr).1.encoding_header
          = "Content-Encoding: gzip\r\n") := by
  refine ⟨rfl, ?_, ?_⟩
  · intro s
    show strContains s "gzip" = true ↔ _
    exact strContains_iff s "gzip"
  · intro cfg gz resp req now dateStr b c hbody hae henb hmin hstat hct hgz
    have haccept : client_accepts_gzip (some req.accept_encoding) = true := by
      rw [hae]; decide
    simp only [send_http_response, hbody]
    rw [if_pos ⟨henb, hmin, hstat, hct, haccept⟩, hgz]

/-- C10 witness: "gzip;q=0" contains "gzip" as a substring, and a request
carrying it still gets a gzip-compressed response. -/
theorem client_accepts_gzip_spec_witness :
    (∃ pre post, ("gzip;q=0" : String).toList
        = pre ++ ("gzip" : String).toList ++ post)
    ∧ (send_http_response cfg_gz gzTen resp64 (some req_gzip_q0) 0 "d").1.encoding_header
        = "Content-Encoding: gzip\r\n" :=
  ⟨(client_accepts_gzip_spec.2.1 "gzip;q=0").mp (by decide),
    client_accepts_gzip_spec.2.2 cfg_gz gzTen resp64 req_gzip_q0 0 "d"
      body64 (String.mk (List.replicate 10 'a')) rfl rfl rfl (by decide) rfl
      (by decide) (by decide)⟩

/-- C2 (code evaluation at the failing input): `GET /subdir` against an
existing directory without trailing slash yields a 301 with no body, but the
full serialized response contains neither the string "/subdir/" nor any
"Location" header — the redirect target computed by the C code into
`redirect_path` is never placed in the response, so the client is not told
where to go. -/
theorem handle_directory_redirect_no_target :
    (handle_http_request cfg_www fs_www req_subdir).status_code = 301
    ∧ (handle_http_request cfg_www fs_www req_subdir).body = none
    ∧ strContains (render_header (send_http_response cfg_www (fun _ => none)
        (handle_http_request cfg_www fs_www req_subdir) (some req_subdir) 0
        "Thu, 01 Jan 1970 00:00:00 GMT").1) "/subdir/" = false
    ∧ strContains (render_header (send_http_response cfg_www (fun _ => none)
        (handle_http_request cfg_www fs_www req_subdir) (some req_subdir) 0
        "Thu, 01 Jan 1970 00:00:00 GMT").1) "Location" = false
    ∧ (send_http_response cfg_www (fun _ => none)
        (handle_http_request cfg_www fs_www req_subdir) (some req_subdir) 0
        "Thu, 01 Jan 1970 00:00:00 GMT").2 = "" :=
  ⟨by decide, by decide, by decide, by decide, by decide⟩
